import Mathlib

/-!
Shallow embedding of `src/ethereum/contract_backend.go` from newsones/forta-node.

The Go wrapper `contractBackend` decorates an RPC client with three
intercepted operations: `SuggestGasPrice` (10% markup, 1-minute cache,
optional ceiling), `PendingNonceAt` (local nonce tracking with a drift
threshold of 50), and `SendTransaction` (local nonce advance on success,
reset on "replacement transaction underpriced").

Modelling conventions:
- `uint64` fields are `Nat`; overflow is made explicit with `% 2 ^ 64`
  exactly where the Go code can overflow (`tx.Nonce() + 1`).
- `*big.Int` gas prices are `Int`; `big.Int.Div` is Euclidean division,
  embedded as `Int.ediv`.
- `time.Time` / `time.Duration` are `Int` nanoseconds; `time.Since t` at
  the moment `now` is `now - t`; the Go zero `time.Time` is `0`.
- The delegate (the wrapped `ethclient.Client`) is external: each operation
  takes the delegate response for this call as an explicit argument. Go
  returns result-and-error pairs; for `PendingNonceAt` the wrapper assigns
  the returned value to `lastServerNonce` before inspecting the error, so
  the delegate response is passed as a value plus an optional error.
- Errors are their message strings (the wrapper only inspects `err.Error()`).
- Logging is side-effect free observability and is omitted.
-/

/-- Nanoseconds in `1 * time.Minute`. -/
def oneMinute : Int := 60 * 1000000000

/-- Modulus of Go `uint64` arithmetic. -/
def u64 : Nat := 2 ^ 64

/-- Go constant `maxNonceDrift = 50`. -/
def maxNonceDrift : Nat := 50

/-- Go constant `errStrReplacementTx`. -/
def errStrReplacementTx : String := "replacement transaction underpriced"

/-- Modelled from the spec: `utils.AddPercentage` lives outside `src/`
(package `utils` of this repository). The spec states the marked-up price
is the base suggestion increased by the percentage under integer
arithmetic, `g + floor(g * pct / 100)`; `Int.ediv` is floor division for
the positive divisor 100. The Go function mutates its argument in place;
here it returns the new value. -/
def addPercentage (value : Int) (percentage : Int) : Int :=
  value + Int.ediv (value * percentage) 100

/-- State of the Go struct `contractBackend`. The embedded delegate
interface is not part of the state: delegate responses are explicit
arguments of each operation. -/
structure ContractBackend where
  localNonce : Nat
  lastServerNonce : Nat
  gasPrice : Option Int
  gasPriceUpdated : Int
  maxPrice : Option Int
deriving DecidableEq

/-- Go `NewContractBackend`: zero-valued nonces and cache, the given
optional maximum gas price. -/
def newContractBackend (maxPrice : Option Int) : ContractBackend :=
  { localNonce := 0
    lastServerNonce := 0
    gasPrice := none
    gasPriceUpdated := 0
    maxPrice := maxPrice }

/-- The only transaction field the wrapper's state transitions read is
`tx.Nonce()`; the other fields are used for logging only. -/
structure Transaction where
  nonce : Nat
deriving DecidableEq

/-- Go `(cb *contractBackend) resetNonce()`: pull `localNonce` down to
`lastServerNonce` when the latter is smaller. -/
def resetNonce (cb : ContractBackend) : ContractBackend :=
  if cb.lastServerNonce < cb.localNonce then
    { cb with localNonce := cb.lastServerNonce }
  else
    cb

/-- Go `(cb *contractBackend) incrementNonce(tx)`: `newNonce := tx.Nonce() + 1`
in `uint64` arithmetic (hence the `% 2 ^ 64`), adopted only when it is
strictly greater than `localNonce`. -/
def incrementNonce (cb : ContractBackend) (tx : Transaction) : ContractBackend :=
  let newNonce := (tx.nonce + 1) % u64
  if cb.localNonce < newNonce then
    { cb with localNonce := newNonce }
  else
    cb

/-- Go `isReplacementErr`: exact string comparison of the error message. -/
def isReplacementErr (err : String) : Bool :=
  err == errStrReplacementTx

/-- Go `(cb *contractBackend) PendingNonceAt(ctx, account)`. The delegate
response is `(serverNonce, serverErr)`; the Go multiple assignment
`cb.lastServerNonce, err = cb.ContractBackend.PendingNonceAt(...)` stores
`serverNonce` into `lastServerNonce` before the error is inspected. The
drift comparison `cb.localNonce - cb.lastServerNonce` is guarded by
`cb.localNonce > cb.lastServerNonce`, under which `uint64` subtraction
agrees with truncated `Nat` subtraction. -/
def pendingNonceAt (cb : ContractBackend) (serverNonce : Nat)
    (serverErr : Option String) : Except String Nat × ContractBackend :=
  let cb1 := { cb with lastServerNonce := serverNonce }
  match serverErr with
  | some err => (Except.error err, cb1)
  | none =>
    if cb1.localNonce = 0 then
      (Except.ok cb1.lastServerNonce, cb1)
    else if cb1.localNonce > cb1.lastServerNonce ∧
        cb1.localNonce - cb1.lastServerNonce ≥ maxNonceDrift then
      let cb2 := resetNonce cb1
      (Except.ok cb2.lastServerNonce, cb2)
    else
      (Except.ok cb1.localNonce, cb1)

/-- Cache-miss path of Go `SuggestGasPrice`: query the delegate, add 10%,
clamp to `maxPrice` without caching, otherwise cache with the current
timestamp. `gp.Cmp(cb.maxPrice) == 1` is `mp < gp`. -/
def suggestGasPriceUncached (cb : ContractBackend) (now : Int)
    (delegate : Except String Int) : Except String Int × ContractBackend :=
  match delegate with
  | Except.error e => (Except.error e, cb)
  | Except.ok gpBase =>
    let gp := addPercentage gpBase 10
    match cb.maxPrice with
    | some mp =>
      if mp < gp then
        (Except.ok mp, cb)
      else
        (Except.ok gp, { cb with gasPrice := some gp, gasPriceUpdated := now })
    | none =>
      (Except.ok gp, { cb with gasPrice := some gp, gasPriceUpdated := now })

/-- Go `(cb *contractBackend) SuggestGasPrice(ctx)`: return the cached
price when one exists and `time.Since(cb.gasPriceUpdated) < 1 * time.Minute`,
otherwise take the uncached path. -/
def suggestGasPrice (cb : ContractBackend) (now : Int)
    (delegate : Except String Int) : Except String Int × ContractBackend :=
  match cb.gasPrice with
  | some cached =>
    if now - cb.gasPriceUpdated < oneMinute then
      (Except.ok cached, cb)
    else
      suggestGasPriceUncached cb now delegate
  | none => suggestGasPriceUncached cb now delegate

/-- Go `(cb *contractBackend) SendTransaction(ctx, tx)`: on delegate
failure, reset the local nonce when the error is the replacement error and
propagate the error; on success, advance the local nonce. -/
def sendTransaction (cb : ContractBackend) (tx : Transaction)
    (delegateErr : Option String) : Option String × ContractBackend :=
  match delegateErr with
  | some err =>
    if isReplacementErr err then
      (some err, resetNonce cb)
    else
      (some err, cb)
  | none => (none, incrementNonce cb tx)

/-- Helper: `resetNonce` computes the minimum of the two nonce fields. -/
theorem resetNonce_eq_min (cb : ContractBackend) :
    resetNonce cb = { cb with localNonce := min cb.localNonce cb.lastServerNonce } := by
  cases cb with
  | mk ln lsn gp gpu mp =>
    unfold resetNonce
    by_cases h : lsn < ln <;> simp [h] <;> omega

/-- C1 counterexample: starting from the freshly constructed backend
(`localNonce = 0`), a first nonce query answered by the server with 7
returns 7 but leaves `localNonce` at 0 — the code never assigns
`localNonce` in the first-time branch, so the claim that `localNonce`
adopts the server value is false. -/
theorem c1_counterexample :
    (pendingNonceAt (newContractBackend none) 7 none).1 = Except.ok 7 ∧
    ¬ (pendingNonceAt (newContractBackend none) 7 none).2.localNonce = 7 := by
  exact ⟨rfl, by decide⟩

/-- C1 (amended): while `localNonce` is still 0, a successful nonce query
returns the server value and stores it in `lastServerNonce`; `localNonce`
itself stays 0 (it is only advanced later by a successful send). -/
theorem c1_first_nonce_query (cb : ContractBackend) (s : Nat)
    (h : cb.localNonce = 0) :
    pendingNonceAt cb s none = (Except.ok s, { cb with lastServerNonce := s }) := by
  simp [pendingNonceAt, h]

/-- C1 witness: the amended theorem at the freshly constructed backend with
server nonce 7. -/
theorem c1_first_nonce_query_witness :
    pendingNonceAt (newContractBackend none) 7 none =
      (Except.ok 7, { newContractBackend none with lastServerNonce := 7 }) :=
  c1_first_nonce_query (newContractBackend none) 7 rfl

/-- C2 counterexample: with `lastServerNonce = 5` stored, a failing nonce
query whose delegate responded `(0, err)` propagates the error but
overwrites `lastServerNonce` with 0 — the Go assignment happens before the
error check, so the claim that all local state is unchanged is false. -/
theorem c2_counterexample :
    (pendingNonceAt
        { localNonce := 3, lastServerNonce := 5, gasPrice := none,
          gasPriceUpdated := 0, maxPrice := none } 0 (some "connection refused")).1
      = Except.error "connection refused" ∧
    ¬ (pendingNonceAt
        { localNonce := 3, lastServerNonce := 5, gasPrice := none,
          gasPriceUpdated := 0, maxPrice := none } 0
          (some "connection refused")).2.lastServerNonce = 5 := by
  exact ⟨rfl, by decide⟩

/-- C2 (amended): on a failing nonce query the error is propagated and
`localNonce` and the gas-price cache are unchanged, but `lastServerNonce`
is overwritten with the value the delegate returned alongside the error
(0 for the standard client). -/
theorem c2_nonce_query_failure (cb : ContractBackend) (s : Nat) (e : String) :
    pendingNonceAt cb s (some e) = (Except.error e, { cb with lastServerNonce := s }) :=
  rfl

/-- C3: when `localNonce` is non-zero and exceeds the server nonce `s` by
at least the drift threshold 50, the query returns `s` and `localNonce` is
pulled down to `min localNonce s`. -/
theorem c3_drift_reset (cb : ContractBackend) (s : Nat)
    (h0 : cb.localNonce ≠ 0) (hd : maxNonceDrift ≤ cb.localNonce - s) :
    pendingNonceAt cb s none =
      (Except.ok s,
        { cb with lastServerNonce := s, localNonce := min cb.localNonce s }) := by
  have h50 : maxNonceDrift = 50 := rfl
  have hs : s < cb.localNonce := by omega
  have hmin : min cb.localNonce s = s := by omega
  simp only [pendingNonceAt, resetNonce_eq_min, hmin]
  simp [h0, hs, hd]

/-- C3 witness: localNonce 60 against server nonce 5 (drift 55 ≥ 50)
returns 5 and resets localNonce to 5. -/
theorem c3_drift_reset_witness :
    (60 : Nat) ≠ 0 ∧ maxNonceDrift ≤ 60 - 5 ∧
    pendingNonceAt
        { localNonce := 60, lastServerNonce := 0, gasPrice := none,
          gasPriceUpdated := 0, maxPrice := none } 5 none =
      (Except.ok 5,
        { localNonce := min 60 5, lastServerNonce := 5, gasPrice := none,
          gasPriceUpdated := 0, maxPrice := none }) :=
  ⟨by decide, by decide,
    c3_drift_reset
      { localNonce := 60, lastServerNonce := 0, gasPrice := none,
        gasPriceUpdated := 0, maxPrice := none } 5 (by decide) (by decide)⟩

/-- C4: a send failing with exactly "replacement transaction underpriced"
returns that original error and resets `localNonce` to
`min localNonce lastServerNonce`. -/
theorem c4_replacement_reset (cb : ContractBackend) (tx : Transaction) :
    sendTransaction cb tx (some errStrReplacementTx) =
      (some errStrReplacementTx,
        { cb with localNonce := min cb.localNonce cb.lastServerNonce }) := by
  simp [sendTransaction, isReplacementErr, resetNonce_eq_min]

/-- C5 counterexample: at the maximum `uint64` nonce the increment wraps to
0, so after a successful send from the fresh backend `localNonce` is 0,
not `max 0 (2 ^ 64 - 1 + 1) = 2 ^ 64` — the unbounded reading of
`max(localNonce, n + 1)` is false at the wrap point. -/
theorem c5_counterexample :
    (sendTransaction (newContractBackend none) { nonce := 2 ^ 64 - 1 } none).1 = none ∧
    ¬ (sendTransaction (newContractBackend none)
          { nonce := 2 ^ 64 - 1 } none).2.localNonce
        = max (newContractBackend none).localNonce (2 ^ 64 - 1 + 1) := by
  exact ⟨rfl, by decide⟩

/-- C5 (amended): a successful send of a transaction whose nonce increment
does not overflow `uint64` returns no error and advances `localNonce` to
`max localNonce (nonce + 1)`; in particular it never moves backward. -/
theorem c5_send_success (cb : ContractBackend) (tx : Transaction)
    (h : tx.nonce + 1 < u64) :
    sendTransaction cb tx none =
      (none, { cb with localNonce := max cb.localNonce (tx.nonce + 1) }) := by
  have hmod : (tx.nonce + 1) % u64 = tx.nonce + 1 := Nat.mod_eq_of_lt h
  cases cb with
  | mk ln lsn gp gpu mp =>
    simp only [sendTransaction, incrementNonce, hmod]
    by_cases hlt : ln < tx.nonce + 1 <;> simp [hlt] <;> omega

/-- C5 witness: the amended theorem at nonce 3 from the fresh backend. -/
theorem c5_send_success_witness :
    (3 : Nat) + 1 < u64 ∧
    sendTransaction (newContractBackend none) { nonce := 3 } none =
      (none,
        { newContractBackend none with
            localNonce := max (newContractBackend none).localNonce (3 + 1) }) :=
  ⟨by decide, c5_send_success (newContractBackend none) { nonce := 3 } (by decide)⟩

/-- C10: sending a transaction with the maximum representable nonce
`2 ^ 64 - 1` successfully leaves the backend unchanged: the incremented
nonce wraps to 0 under `uint64` arithmetic, `newNonce > localNonce` is
false, and `localNonce` keeps its value. -/
theorem c10_max_nonce_wrap (cb : ContractBackend) :
    sendTransaction cb { nonce := 2 ^ 64 - 1 } none = (none, cb) := by
  simp [sendTransaction, incrementNonce, u64]

/-- C6: on a cache miss with configured ceiling `mp`, when the marked-up
delegate suggestion strictly exceeds `mp`, the call returns exactly `mp`
and leaves the whole state — in particular `gasPrice` and
`gasPriceUpdated` — unchanged: the ceiling is never cached. -/
theorem c6_ceiling_not_cached (cb : ContractBackend) (now g mp : Int)
    (hmiss : cb.gasPrice = none ∨ oneMinute ≤ now - cb.gasPriceUpdated)
    (hmax : cb.maxPrice = some mp)
    (hover : mp < addPercentage g 10) :
    suggestGasPrice cb now (Except.ok g) = (Except.ok mp, cb) := by
  have huncached : suggestGasPriceUncached cb now (Except.ok g) = (Except.ok mp, cb) := by
    simp [suggestGasPriceUncached, hmax, hover]
  unfold suggestGasPrice
  rcases hmiss with hnone | hold
  · simp [hnone, huncached]
  · cases hp : cb.gasPrice with
    | none => simp [huncached]
    | some cached => simp [not_lt.mpr hold, huncached]

/-- C6 witness: ceiling 100, base suggestion 95 → marked-up 104 exceeds
the ceiling → the call returns 100 and nothing is cached. -/
theorem c6_ceiling_not_cached_witness :
    ((newContractBackend (some 100)).gasPrice = none ∨
      oneMinute ≤ (0 : Int) - (newContractBackend (some 100)).gasPriceUpdated) ∧
    suggestGasPrice (newContractBackend (some 100)) 0 (Except.ok 95) =
      (Except.ok 100, newContractBackend (some 100)) :=
  ⟨Or.inl rfl,
    c6_ceiling_not_cached (newContractBackend (some 100)) 0 95 100
      (Or.inl rfl) rfl (by decide)⟩

/-- C7: on a cache miss where the delegate succeeds with base suggestion
`g` and the marked-up price does not exceed any configured ceiling, the
call returns `g + floor(g * 10 / 100)` and caches exactly that value with
the current timestamp. -/
theorem c7_markup_cached (cb : ContractBackend) (now g : Int)
    (hmiss : cb.gasPrice = none ∨ oneMinute ≤ now - cb.gasPriceUpdated)
    (hcap : ∀ mp, cb.maxPrice = some mp → addPercentage g 10 ≤ mp) :
    suggestGasPrice cb now (Except.ok g) =
      (Except.ok (g + Int.ediv (g * 10) 100),
        { cb with gasPrice := some (g + Int.ediv (g * 10) 100),
                  gasPriceUpdated := now }) := by
  have huncached : suggestGasPriceUncached cb now (Except.ok g) =
      (Except.ok (g + Int.ediv (g * 10) 100),
        { cb with gasPrice := some (g + Int.ediv (g * 10) 100),
                  gasPriceUpdated := now }) := by
    have hcap2 : ∀ mp, cb.maxPrice = some mp → ¬ mp < g + Int.ediv (g * 10) 100 := by
      intro mp hm
      have hle := hcap mp hm
      simp only [addPercentage] at hle
      omega
    unfold suggestGasPriceUncached
    cases hm : cb.maxPrice with
    | none => simp [addPercentage]
    | some mp => simp [addPercentage, hcap2 mp hm]
  unfold suggestGasPrice
  rcases hmiss with hnone | hold
  · simp [hnone, huncached]
  · cases hp : cb.gasPrice with
    | none => simp [huncached]
    | some cached => simp [not_lt.mpr hold, huncached]

/-- C7 witness: base suggestion 95 with no ceiling from the fresh backend
at time 0 returns 104 and caches 104 at timestamp 0. -/
theorem c7_markup_cached_witness :
    ((newContractBackend none).gasPrice = none ∨
      oneMinute ≤ (0 : Int) - (newContractBackend none).gasPriceUpdated) ∧
    suggestGasPrice (newContractBackend none) 0 (Except.ok 95) =
      (Except.ok (95 + Int.ediv (95 * 10) 100),
        { newContractBackend none with
            gasPrice := some (95 + Int.ediv (95 * 10) 100), gasPriceUpdated := 0 }) :=
  ⟨Or.inl rfl,
    c7_markup_cached (newContractBackend none) 0 95 (Or.inl rfl)
      (fun mp hm => by simp [newContractBackend] at hm)⟩

/-- C8: while a cached price `p` exists and less than one minute has
elapsed since it was cached, a call returns exactly `p` and leaves the
state untouched, whatever the delegate would have answered (the delegate
response is irrelevant: it is not invoked); hence a repeated call still
inside the window returns the identical value. -/
theorem c8_cache_hit (cb : ContractBackend) (now p : Int)
    (hp : cb.gasPrice = some p) (ht : now - cb.gasPriceUpdated < oneMinute) :
    (∀ d, suggestGasPrice cb now d = (Except.ok p, cb)) ∧
    (∀ d d2 now2, now2 - cb.gasPriceUpdated < oneMinute →
      (suggestGasPrice (suggestGasPrice cb now d).2 now2 d2).1 = Except.ok p) := by
  have hfirst : ∀ d, suggestGasPrice cb now d = (Except.ok p, cb) := by
    intro d
    unfold suggestGasPrice
    simp [hp, ht]
  refine ⟨hfirst, ?_⟩
  intro d d2 now2 ht2
  rw [hfirst d]
  unfold suggestGasPrice
  simp [hp, ht2]

/-- C8 witness: cached price 42 at timestamp 0, queried at times 5 and 7
(inside the window) with a delegate that would answer 999: both calls
return 42 and the state is unchanged. -/
theorem c8_cache_hit_witness :
    ({ localNonce := 0, lastServerNonce := 0, gasPrice := some 42,
       gasPriceUpdated := 0, maxPrice := none } : ContractBackend).gasPrice
      = some 42 ∧
    suggestGasPrice
      { localNonce := 0, lastServerNonce := 0, gasPrice := some 42,
        gasPriceUpdated := 0, maxPrice := none } 5 (Except.ok 999) =
      (Except.ok 42,
        { localNonce := 0, lastServerNonce := 0, gasPrice := some 42,
          gasPriceUpdated := 0, maxPrice := none }) ∧
    (suggestGasPrice
      (suggestGasPrice
        { localNonce := 0, lastServerNonce := 0, gasPrice := some 42,
          gasPriceUpdated := 0, maxPrice := none } 5 (Except.ok 999)).2
      7 (Except.ok 888)).1 = Except.ok 42 :=
  ⟨rfl,
    (c8_cache_hit _ 5 42 rfl (by decide)).1 (Except.ok 999),
    (c8_cache_hit _ 5 42 rfl (by decide)).2 (Except.ok 999) (Except.ok 888) 7 (by decide)⟩

/-- C9: with a configured maximum `mp` and the invariant that any cached
price is at most `mp`, every successful call — cache hit or miss —
returns a value at most `mp`, and the invariant is preserved in the
resulting state. -/
theorem c9_max_price_bound (cb : ContractBackend) (now : Int)
    (d : Except String Int) (mp : Int)
    (hmax : cb.maxPrice = some mp)
    (hinv : ∀ p, cb.gasPrice = some p → p ≤ mp) :
    (∀ v, (suggestGasPrice cb now d).1 = Except.ok v → v ≤ mp) ∧
    (∀ p, (suggestGasPrice cb now d).2.gasPrice = some p → p ≤ mp) := by
  have huncached :
      (∀ v, (suggestGasPriceUncached cb now d).1 = Except.ok v → v ≤ mp) ∧
      (∀ p, (suggestGasPriceUncached cb now d).2.gasPrice = some p → p ≤ mp) := by
    unfold suggestGasPriceUncached
    cases d with
    | error e => exact ⟨fun v hv => by simp at hv, fun p hp => hinv p hp⟩
    | ok g =>
      simp only [hmax]
      by_cases hover : mp < addPercentage g 10
      · simp only [hover, if_true]
        exact ⟨fun v hv => by simp at hv; omega, fun p hp => hinv p hp⟩
      · simp only [hover, if_false]
        refine ⟨fun v hv => ?_, fun p hp => ?_⟩
        · simp at hv
          omega
        · simp at hp
          omega
  unfold suggestGasPrice
  cases hp : cb.gasPrice with
  | none => exact huncached
  | some cached =>
    by_cases ht : now - cb.gasPriceUpdated < oneMinute
    · simp only [ht, if_true]
      exact ⟨fun v hv => by simp at hv; subst hv; exact hinv cached hp,
        fun p hq => hinv p hq⟩
    · simp only [ht, if_false]
      exact huncached

/-- C9 witness: ceiling 100, fresh cache, delegate suggestion 95 → the
returned 100 is at most the ceiling. -/
theorem c9_max_price_bound_witness :
    (newContractBackend (some 100)).maxPrice = some 100 ∧
    (suggestGasPrice (newContractBackend (some 100)) 0 (Except.ok 95)).1
      = Except.ok 100 ∧
    (100 : Int) ≤ 100 :=
  ⟨rfl, rfl,
    (c9_max_price_bound (newContractBackend (some 100)) 0 (Except.ok 95) 100 rfl
        (fun p hp => by simp [newContractBackend] at hp)).1 100 rfl⟩
